import Mathlib

/-!
Shallow embedding of the Market-gap-hunter backend
(`src/backend/cache_manager.py`, `src/backend/history_manager.py`,
`src/backend/main.py`) together with theorems settling the frozen claims
about its specification.

Machine conventions: Python floats are modelled as exact rationals (ℚ),
timestamps as natural-number clock readings, dictionaries as association
lists in insertion order, and the file store of the cache as an
association list from file name (the derived hex key) to file content.
-/

namespace MarketGapHunter

/-! ### cache_manager.py : parameter values and key derivation -/

/-- A scalar parameter value as passed to `CacheManager._generate_key`
via `**kwargs` (in `main.py` these are the rounded `lat`/`lon` floats,
the `business_type` string and the integer `radius`; numbers are
modelled as ℚ). -/
inductive PValue where
  | num : ℚ → PValue
  | str : String → PValue
deriving DecidableEq, Repr

/-- Ordering on parameter values, completing Python tuple comparison to a
total order (Python would only ever compare values of equal type here,
and with distinct dictionary keys never compares values at all). -/
def PValue.le : PValue → PValue → Prop
  | .num x, .num y => x ≤ y
  | .num _, .str _ => True
  | .str _, .num _ => False
  | .str x, .str y => x ≤ y

instance PValue.decLe : ∀ a b : PValue, Decidable (PValue.le a b)
  | .num x, .num y => inferInstanceAs (Decidable (x ≤ y))
  | .num _, .str _ => .isTrue trivial
  | .str _, .num _ => .isFalse fun h => h
  | .str x, .str y => inferInstanceAs (Decidable (x ≤ y))

/-- A parameter mapping (`**kwargs`): dictionary items in insertion
order.  Two mappings with the same pairs in different insertion order
are permutations of each other. -/
def Params := List (String × PValue)

/-- Ordering used by Python `sorted(kwargs.items())`: lexicographic on
the (key, value) tuple. -/
def pairLe (a b : String × PValue) : Prop :=
  a.1 < b.1 ∨ (a.1 = b.1 ∧ PValue.le a.2 b.2)

instance pairLe.dec : DecidableRel pairLe := fun _ _ =>
  inferInstanceAs (Decidable (_ ∨ _))

instance : IsTotal (String × PValue) pairLe where
  total a b := by
    rcases lt_trichotomy a.1 b.1 with h | h | h
    · exact Or.inl (Or.inl h)
    · rcases a with ⟨k₁, v₁⟩
      rcases b with ⟨k₂, v₂⟩
      simp only at h
      subst h
      rcases v₁ with x | x <;> rcases v₂ with y | y
      · rcases le_total x y with hv | hv
        · exact Or.inl (Or.inr ⟨rfl, hv⟩)
        · exact Or.inr (Or.inr ⟨rfl, hv⟩)
      · exact Or.inl (Or.inr ⟨rfl, trivial⟩)
      · exact Or.inr (Or.inr ⟨rfl, trivial⟩)
      · rcases le_total x y with hv | hv
        · exact Or.inl (Or.inr ⟨rfl, hv⟩)
        · exact Or.inr (Or.inr ⟨rfl, hv⟩)
    · exact Or.inr (Or.inl h)

instance : IsTrans (String × PValue) pairLe where
  trans a b c hab hbc := by
    rcases hab with hab | ⟨hab, hv₁⟩
    · rcases hbc with hbc | ⟨hbc, _⟩
      · exact Or.inl (hab.trans hbc)
      · exact Or.inl (hbc ▸ hab)
    · rcases hbc with hbc | ⟨hbc, hv₂⟩
      · exact Or.inl (hab ▸ hbc)
      · refine Or.inr ⟨hab.trans hbc, ?_⟩
        rcases a with ⟨_, x⟩; rcases b with ⟨_, y⟩; rcases c with ⟨_, z⟩
        simp only at hv₁ hv₂ ⊢
        rcases x with x | x <;> rcases y with y | y <;> rcases z with z | z <;>
          simp_all [PValue.le] <;> exact le_trans hv₁ hv₂

instance : IsAntisymm (String × PValue) pairLe where
  antisymm a b hab hba := by
    rcases a with ⟨k₁, v₁⟩
    rcases b with ⟨k₂, v₂⟩
    rcases hab with hab | ⟨hab, hv₁⟩
    · rcases hba with hba | ⟨hba, _⟩
      · exact absurd (hab.trans hba) (lt_irrefl _)
      · simp only at hab hba
        exact absurd (hba ▸ hab) (lt_irrefl _)
    · rcases hba with hba | ⟨hba, hv₂⟩
      · simp only at hab hba
        exact absurd (hab ▸ hba) (lt_irrefl _)
      · simp only at hab
        subst hab
        rcases v₁ with x | x <;> rcases v₂ with y | y <;>
          simp only [PValue.le] at hv₁ hv₂
        · rw [le_antisymm hv₁ hv₂]
        · rw [le_antisymm hv₁ hv₂]

/-- `sorted(kwargs.items())` from `_generate_key`: Python's stable sort
by the (key, value) tuple, embedded as insertion sort. -/
def sortedParams (kwargs : List (String × PValue)) : List (String × PValue) :=
  List.insertionSort pairLe kwargs

/-- Canonical JSON rendering of one scalar value (`json.dumps`); ℚ is
rendered by `toString`, a fixed injective-enough stand-in for Python's
repr of numbers — the claims depend only on this being a pure function
of the value. -/
def PValue.serialize : PValue → String
  | .num q => toString q
  | .str s => "\"" ++ s ++ "\""

/-- One `[key, value]` tuple as `json.dumps` renders it. -/
def serializePair (p : String × PValue) : String :=
  "[\"" ++ p.1 ++ "\", " ++ p.2.serialize ++ "]"

/-- `json.dumps(sorted_params, sort_keys=True)` from `_generate_key`
(the top level is a list of pairs, so `sort_keys` has no further
effect). -/
def paramString (kwargs : List (String × PValue)) : String :=
  "[" ++ String.intercalate ", " ((sortedParams kwargs).map serializePair) ++ "]"

/-- Models `hashlib.sha256(param_string.encode()).hexdigest()`: a fixed
pure function from the canonical parameter string to a hex digest.  The
compression schedule of SHA-256 is irrelevant to every claim here (only
that the digest is a deterministic function of the string matters), so
it is embedded as a polynomial byte fold reduced mod 2^256 and rendered
in base 16. -/
def sha256hex (s : String) : String :=
  (Nat.toDigits 16
    (s.toList.foldl (fun acc c => (acc * 257 + c.toNat + 1) % 2 ^ 256) 0)).asString

/-- `CacheManager._generate_key`: sort the items, serialize canonically,
hash.  Takes no clock argument: the key is a pure function of the
parameter mapping. -/
def generate_key (kwargs : List (String × PValue)) : String :=
  sha256hex (paramString kwargs)

/-! ### cache_manager.py : the TTL-gated store -/

/-- One cache file's content, as written by `CacheManager.set`:
`{'timestamp': ..., 'params': kwargs, 'data': data}`. -/
structure CacheEntry (α : Type) where
  timestamp : ℕ
  params : List (String × PValue)
  data : α

/-- The cache directory: file name (derived key) ↦ file content. -/
def CState (α : Type) := List (String × CacheEntry α)

/-- Look a file up by name (`cache_file.exists()` + read). -/
def fileLookup {β : Type} : List (String × β) → String → Option β
  | [], _ => none
  | (k, v) :: rest, key => if k = key then some v else fileLookup rest key

/-- `cache_file.unlink()`: remove the file with the given name. -/
def fileErase {β : Type} : List (String × β) → String → List (String × β)
  | [], _ => []
  | (k, v) :: rest, key =>
      if k = key then fileErase rest key else (k, v) :: fileErase rest key

/-- Writing a file: any previous file of that name is overwritten. -/
def fileWrite {β : Type} (st : List (String × β)) (key : String) (v : β) :
    List (String × β) :=
  (key, v) :: fileErase st key

/-- `CacheManager.set(data, **kwargs)` at clock reading `now`. -/
def cacheSet {α : Type} (st : CState α) (now : ℕ)
    (kwargs : List (String × PValue)) (data : α) : CState α :=
  fileWrite st (generate_key kwargs) ⟨now, kwargs, data⟩

/-- `CacheManager.get(**kwargs)` at clock reading `now` with the given
`ttl`: returns the payload (or `none`) together with the cache state
after the call (an expired entry is unlinked as a side effect). -/
def cacheGet {α : Type} (ttl : ℕ) (st : CState α) (now : ℕ)
    (kwargs : List (String × PValue)) : Option α × CState α :=
  let key := generate_key kwargs
  match fileLookup st key with
  | none => (none, st)
  | some e =>
      if ttl < now - e.timestamp then (none, fileErase st key)
      else (some e.data, st)

/-! ### Python rounding -/

/-- `round(q)` on an exact value: round half to even (banker's
rounding), as Python's built-in `round` does. -/
def pyRoundInt (q : ℚ) : ℤ :=
  if Int.fract q < 1 / 2 then ⌊q⌋
  else if 1 / 2 < Int.fract q then ⌊q⌋ + 1
  else if Even ⌊q⌋ then ⌊q⌋ else ⌊q⌋ + 1

/-- `round(q, ndigits)`. -/
def pyRound (q : ℚ) (ndigits : ℕ) : ℚ :=
  (pyRoundInt (q * 10 ^ ndigits) : ℚ) / 10 ^ ndigits

/-! ### history_manager.py -/

/-- The summarized result stored by `HistoryManager.add_analysis`
(`result.get(...)` for the six fields it keeps). -/
structure ResultSummary where
  score : ℚ
  verdict : String
  supply_count : ℕ
  demand_count : ℕ
  growth_status : String
  construction_count : ℕ
deriving DecidableEq, Repr

/-- One history log entry as built by `add_analysis`. -/
structure HistoryEntry where
  timestamp : String
  lat : ℚ
  lon : ℚ
  business_type : String
  radius : ℕ
  result : ResultSummary
deriving DecidableEq, Repr

/-- The arguments of one `add_analysis` call (with the wall-clock
timestamp string the call would stamp). -/
structure AppendCall where
  timestamp : String
  lat : ℚ
  lon : ℚ
  business_type : String
  radius : ℕ
  result : ResultSummary
deriving DecidableEq, Repr

/-- The entry a call builds: location rounded to 6 decimal digits,
result summarized. -/
def mkEntry (c : AppendCall) : HistoryEntry :=
  ⟨c.timestamp, pyRound c.lat 6, pyRound c.lon 6, c.business_type, c.radius, c.result⟩

/-- `history[-(n):]` (here with `n = 100`): the suffix of the most
recent `n` entries. -/
def takeLast {α : Type} (n : ℕ) (l : List α) : List α :=
  l.drop (l.length - n)

/-- The log mutation of `HistoryManager.add_analysis`: append the new
entry, then `if len(history) > 100: history = history[-100:]`. -/
def add_analysis (log : List HistoryEntry) (c : AppendCall) : List HistoryEntry :=
  let history := log ++ [mkEntry c]
  if 100 < history.length then history.drop (history.length - 100) else history

/-- A sequence of `add_analysis` calls applied in order. -/
def runAppends (log : List HistoryEntry) (calls : List AppendCall) : List HistoryEntry :=
  calls.foldl add_analysis log

/-- The dictionary update `business_types[btype] = business_types.get(btype, 0) + 1`
on an insertion-ordered association list. -/
def bumpType : List (String × ℕ) → String → List (String × ℕ)
  | [], bt => [(bt, 1)]
  | (k, c) :: rest, bt =>
      if k = bt then (k, c + 1) :: rest else (k, c) :: bumpType rest bt

/-- The `business_types` histogram accumulated over the whole log. -/
def histTypes (log : List HistoryEntry) : List (String × ℕ) :=
  log.foldl (fun m e => bumpType m e.business_type) []

/-- Python `max(items, key=lambda x: x[1])` over a dictionary's items:
scan in order, keep the current maximum, replace only on strictly
greater — so the first maximal item wins. -/
def pyMaxSnd (l : List (String × ℕ)) : Option (String × ℕ) :=
  match l with
  | [] => none
  | p :: rest => some (rest.foldl (fun best x => if best.2 < x.2 then x else best) p)

/-- The return value of `HistoryManager.get_statistics`.  `date_range`
is an `Option` because the empty-log branch returns a dictionary without
that key at all. -/
structure Stats where
  total_analyses : ℕ
  business_types : List (String × ℕ)
  average_score : ℚ
  most_analyzed_type : Option String
  date_range : Option (String × String)
deriving DecidableEq, Repr

/-- `HistoryManager.get_statistics`. -/
def get_statistics (log : List HistoryEntry) : Stats :=
  match log with
  | [] => ⟨0, [], 0, none, none⟩
  | e :: rest =>
      let bts := histTypes (e :: rest)
      let total_score := ((e :: rest).map fun h => h.result.score).sum
      ⟨(e :: rest).length, bts,
        pyRound (total_score / (e :: rest).length) 2,
        (pyMaxSnd bts).map Prod.fst,
        some (e.timestamp, ((e :: rest).getLast (List.cons_ne_nil e rest)).timestamp)⟩

/-! ### main.py : /analyze — demand classification, sampling, scoring -/

/-- `demand_tags_map` from `analyze_market` (section B), in source
order. -/
def demand_tags_map : List (String × String) :=
  [("office", "Office"), ("school", "Students"), ("university", "Students"),
   ("college", "Students"), ("apartments", "Residential"),
   ("condominium", "Residential"), ("residential", "Residential"),
   ("station", "Transport")]

/-- First-match lookup in an association list (Python `val in map` then
`map[val]`). -/
def tagLookup : List (String × String) → String → Option String
  | [], _ => none
  | (k, g) :: rest, v => if k = v then some g else tagLookup rest v

/-- One row of the fetched demand GeoDataFrame: the stringified cell
values `str(row.get(col))` in column order, plus the row's centroid
coordinates. -/
structure DemandRow where
  vals : List String
  lat : ℚ
  lon : ℚ
deriving DecidableEq, Repr

/-- The per-row scan of `analyze_market`: walk the columns, bucket the
row by the first cell value present in `demand_tags_map` and break;
fall back to `Residential` when nothing matches. -/
def classifyRow : List String → String
  | [] => "Residential"
  | v :: rest =>
      match tagLookup demand_tags_map v with
      | some g => g
      | none => classifyRow rest

/-- `demand_breakdown = {"Office": 0, "Students": 0, "Residential": 0,
"Transport": 0}` and its increments. -/
structure DemandBreakdown where
  office : ℕ
  students : ℕ
  residential : ℕ
  transport : ℕ
deriving DecidableEq, Repr

/-- `demand_breakdown[group] += 1` (the group name is always one of the
four category names, `Residential` being the default bucket). -/
def bumpBreakdown (b : DemandBreakdown) (g : String) : DemandBreakdown :=
  if g = "Office" then { b with office := b.office + 1 }
  else if g = "Students" then { b with students := b.students + 1 }
  else if g = "Transport" then { b with transport := b.transport + 1 }
  else { b with residential := b.residential + 1 }

/-- The whole classification loop over the (full, unsampled)
GeoDataFrame rows. -/
def classifyAll (rows : List DemandRow) : DemandBreakdown :=
  rows.foldl (fun b r => bumpBreakdown b (classifyRow r.vals)) ⟨0, 0, 0, 0⟩

/-- Sum of the four category counts of a breakdown. -/
def DemandBreakdown.total (b : DemandBreakdown) : ℕ :=
  b.office + b.students + b.residential + b.transport

/-- `if len(demand_gdf) > 1000: demand_gdf = demand_gdf.sample(1000)`.
The pseudo-random row selection of pandas `sample` is abstracted as the
`sampler` argument; faithfulness to pandas means `sampler rows` has
length exactly 1000 whenever it is invoked (it is invoked only on
inputs longer than 1000). -/
def sampleDisplay (sampler : List DemandRow → List DemandRow)
    (rows : List DemandRow) : List DemandRow :=
  if 1000 < rows.length then sampler rows else rows

/-- Section B of `analyze_market`: classification counts over the full
fetched row set, display point list from the (possibly sampled) rows;
a failed fetch (`none`) leaves the zero breakdown and the empty point
list. -/
def demandSection (sampler : List DemandRow → List DemandRow)
    (fetch : Option (List DemandRow)) : DemandBreakdown × List (ℚ × ℚ) :=
  match fetch with
  | none => (⟨0, 0, 0, 0⟩, [])
  | some rows =>
      (classifyAll rows, (sampleDisplay sampler rows).map fun r => (r.lat, r.lon))

/-- One supply point as collected in section A (`{"lat": .., "lon": ..,
"name": ..}`). -/
structure SupplyPoint where
  lat : ℚ
  lon : ℚ
  name : String
deriving DecidableEq, Repr

/-- Section C of `analyze_market`: the growth label computed from the
construction count by the threshold chain (`> 5` booming, `> 2`
growing, default stable). -/
def growthLabel (n : ℕ) : String :=
  if 5 < n then "กำลังบูมสุดๆ 🚀"
  else if 2 < n then "กำลังเติบโต 📈"
  else "ทรงตัว 🏙️"

/-- Section D: `divisor = num_supply if num_supply > 0 else 1;
score = round(num_demand / divisor, 2)`. -/
def scoreOf (num_supply num_demand : ℕ) : ℚ :=
  let divisor : ℕ := if 0 < num_supply then num_supply else 1
  pyRound ((num_demand : ℚ) / (divisor : ℚ)) 2

/-- Section D verdict chain, returning the verdict string and its fixed
display color. -/
def verdictOf (num_supply num_demand : ℕ) (score : ℚ) : String × String :=
  if num_supply = 0 ∧ 0 < num_demand then ("ตลาดไร้คู่แข่ง (โอกาสสูงมาก)", "#2980b9")
  else if 5 < score then ("ศักยภาพสูง (น่าลงทุน)", "#27ae60")
  else if 2 < score then ("ตลาดสมดุล (พอแข่งขันได้)", "#f39c12")
  else ("ตลาดอิ่มตัว (Red Ocean)", "#c0392b")

/-- The `result` dictionary returned by `analyze_market`. -/
structure AnalysisResult where
  score : ℚ
  verdict : String
  verdict_color : String
  supply_count : ℕ
  demand_count : ℕ
  demand_breakdown : DemandBreakdown
  growth_status : String
  construction_count : ℕ
  supply_points : List SupplyPoint
  demand_points : List (ℚ × ℚ)
deriving DecidableEq, Repr

/-- The cache-miss computation of `analyze_market` (sections A–D), with
the three independent external fetches passed in already resolved: a
`none` fetch is the caught-and-logged failure path of that facet. -/
def analyzeCore (sampler : List DemandRow → List DemandRow)
    (supplyFetch : Option (List SupplyPoint))
    (demandFetch : Option (List DemandRow))
    (consFetch : Option ℕ) : AnalysisResult :=
  let supply_points := supplyFetch.getD []
  let num_supply := supply_points.length
  let sec := demandSection sampler demandFetch
  let cons_count := consFetch.getD 0
  let num_demand := sec.2.length
  let score := scoreOf num_supply num_demand
  let vc := verdictOf num_supply num_demand score
  ⟨score, vc.1, vc.2, num_supply, num_demand, sec.1, growthLabel cons_count,
    cons_count, supply_points, sec.2⟩

/-! ### main.py : /autocomplete — relevance ranking -/

/-- One Nominatim candidate as the `/autocomplete` loop reads it
(`cls` for the Python `class` key; `addressCountry` is
`item.get("address", {}).get("country")`). -/
structure NominatimItem where
  display_name : String
  lat : ℚ
  lon : ℚ
  typ : String
  cls : String
  importance : ℚ
  addressCountry : Option String
deriving DecidableEq, Repr

/-- Python truthiness of `item.get("address", {}).get("country")`: a
present, non-empty string. -/
def truthyCountry : Option String → Bool
  | none => false
  | some s => s ≠ ""

/-- Python `pat in s` on strings: contiguous substring. -/
def strContains (s pat : String) : Bool :=
  decide (pat.toList <:+: s.toList)

/-- The nested `place` type table of `priority_map`, with the `30`
default of `.get(place_type, 30)`. -/
def placeScoreOf (typ : String) : ℚ :=
  if typ = "neighbourhood" then 60
  else if typ = "suburb" then 55
  else if typ = "quarter" then 58
  else if typ = "city_block" then 62
  else if typ = "hamlet" then 50
  else if typ = "village" then 45
  else if typ = "town" then 40
  else if typ = "city" then 35
  else if typ = "state" then 10
  else if typ = "country" then 5
  else 30

/-- `priority_map` dispatch: class table, the nested dictionary for
`place`, and the `40` default for a class not in the table. -/
def baseScoreOf (cls typ : String) : ℚ :=
  if cls = "amenity" then 100
  else if cls = "shop" then 95
  else if cls = "tourism" then 90
  else if cls = "leisure" then 85
  else if cls = "building" then 80
  else if cls = "highway" then 70
  else if cls = "place" then placeScoreOf typ
  else if cls = "boundary" then 20
  else 40

/-- The name-match bonus chain: `+30` prefix match, else `+20` in the
first comma-delimited segment (the segment is lowered a second time as
in the source, a no-op after `display_name.lower()`), else `+10`
anywhere, else `+0`; all case-insensitive. -/
def nameBonus (query display : String) : ℚ :=
  let display_name_lower := display.toLower
  let query_lower := query.toLower
  if display_name_lower.startsWith query_lower then 30
  else if strContains (((display_name_lower.splitOn ",").headD "").toLower) query_lower then 20
  else if strContains display_name_lower query_lower then 10
  else 0

/-- One element of `scored_results`. -/
structure ScoredItem where
  display_name : String
  lat : ℚ
  lon : ℚ
  score : ℚ
  typ : String
  cls : String
deriving DecidableEq, Repr

/-- The scored record the loop appends for a surviving item
(`score = base; score += importance * 20; score += name bonus`). -/
def mkScored (query : String) (i : NominatimItem) : ScoredItem :=
  ⟨i.display_name, i.lat, i.lon,
    baseScoreOf i.cls i.typ + i.importance * 20 + nameBonus query i.display_name,
    i.typ, i.cls⟩

/-- One iteration of the `/autocomplete` loop: the two `continue`
filters (bare-country administrative boundary; sea / ocean / continent),
then the scoring.  `none` models `continue`. -/
def scoreItem (query : String) (i : NominatimItem) : Option ScoredItem :=
  if i.cls = "boundary" ∧ i.typ = "administrative" ∧
      truthyCountry i.addressCountry = true ∧
      (i.display_name.splitOn ",").length ≤ 1 then
    none
  else if (i.cls = "natural" ∨ i.cls = "waterway") ∧
      (i.typ = "sea" ∨ i.typ = "ocean" ∨ i.typ = "continent") then
    none
  else
    some (mkScored query i)

/-- The accumulated `scored_results` list. -/
def scored_results (query : String) (data : List NominatimItem) : List ScoredItem :=
  data.filterMap (scoreItem query)

/-- `scored_results.sort(key=lambda x: x["score"], reverse=True)`:
Python's stable sort under the reversed comparison, embedded as
insertion sort with the ≥-on-score relation (equal scores keep input
order). -/
def sortByScoreDesc (l : List ScoredItem) : List ScoredItem :=
  List.insertionSort (fun a b => b.score ≤ a.score) l

/-- One suggestion handed back to the caller (score stripped). -/
structure Suggestion where
  display_name : String
  lat : ℚ
  lon : ℚ
deriving DecidableEq, Repr

/-- The whole `/autocomplete` ranking on an already-fetched candidate
list: filter + score, stable descending sort, top 8, strip the score. -/
def autocompleteRank (query : String) (data : List NominatimItem) : List Suggestion :=
  ((sortByScoreDesc (scored_results query data)).take 8).map
    fun r => ⟨r.display_name, r.lat, r.lon⟩

/-! ### Spec-side definitions (written from the claims, for the
refinement theorems) -/

/-- Claim C5's score formula: `round(demand_count / max(supply_count, 1), 2)`. -/
def specScore (supply_count demand_count : ℕ) : ℚ :=
  pyRound ((demand_count : ℚ) / ((max supply_count 1 : ℕ) : ℚ)) 2

/-- Claim C5's verdict precedence, written from the claim's words:
uncontested when `supply_count == 0 and demand_count > 0`, else high
potential when score > 5.0, else balanced when score > 2.0, else
saturated; each verdict with its fixed display color. -/
def specVerdictColor (supply_count demand_count : ℕ) : String × String :=
  if supply_count = 0 ∧ 0 < demand_count then ("ตลาดไร้คู่แข่ง (โอกาสสูงมาก)", "#2980b9")
  else if 5 < specScore supply_count demand_count then ("ศักยภาพสูง (น่าลงทุน)", "#27ae60")
  else if 2 < specScore supply_count demand_count then ("ตลาดสมดุล (พอแข่งขันได้)", "#f39c12")
  else ("ตลาดอิ่มตัว (Red Ocean)", "#c0392b")

/-- Claim C7's first exclusion condition: an administrative boundary
whose display name reduces to a single country-level component (a bare
country match — the address has a country entry — with no
finer-grained, comma-delimited address detail). -/
def isBareCountryBoundary (i : NominatimItem) : Bool :=
  i.cls = "boundary" && i.typ = "administrative" &&
    truthyCountry i.addressCountry && (i.display_name.splitOn ",").length ≤ 1

/-- Claim C7's second exclusion condition: the class/type denotes a sea,
ocean, or continent. -/
def isSeaOceanContinent (i : NominatimItem) : Bool :=
  (i.cls == "natural" || i.cls == "waterway") &&
    (i.typ == "sea" || i.typ == "ocean" || i.typ == "continent")

/-- Claim C7's exclusion pass predicate: a candidate is dropped iff it
meets one of the two conditions. -/
def exclusionDrop (i : NominatimItem) : Bool :=
  isBareCountryBoundary i || isSeaOceanContinent i

/-- Claim C8's total relevance score: fixed class/type base score plus
`importance * 20` plus exactly one name-match bonus chosen by
priority. -/
def specTotalScore (query : String) (i : NominatimItem) : ℚ :=
  baseScoreOf i.cls i.typ + i.importance * 20 + nameBonus query i.display_name

/-- Claim C8's ranking, written from the claim's words: survivors of the
exclusion pass, paired with their total scores, sorted by total score
descending with ties retaining input relative order (stable sort), top
8, stripped of the internal score. -/
def specRank (query : String) (data : List NominatimItem) : List Suggestion :=
  ((List.insertionSort (fun a b : NominatimItem × ℚ => b.2 ≤ a.2)
      ((data.filter fun i => !exclusionDrop i).map
        fun i => (i, specTotalScore query i))).take 8).map
    fun p => ⟨p.1.display_name, p.1.lat, p.1.lon⟩

/-! ## Theorems -/

/-! ### Helper lemmas -/

theorem fileLookup_fileErase {β : Type} (st : List (String × β)) (k : String) :
    fileLookup (fileErase st k) k = none := by
  induction st with
  | nil => rfl
  | cons p rest ih =>
      rcases p with ⟨k', v⟩
      by_cases h : k' = k
      · simp only [fileErase, if_pos h]
        exact ih
      · simp only [fileErase, if_neg h, fileLookup, if_neg h]
        exact ih

/-! ### C2 : cache key derivation is insertion-order invariant -/

/-- C2: for every two parameter mappings with identical key-value pairs
in different insertion orders (i.e. permutations of each other), the
derived cache key is the same; `generate_key` takes no clock input, so
the key is a pure function of the parameter set. -/
theorem generate_key_order_invariant (p₁ p₂ : List (String × PValue))
    (h : p₁.Perm p₂) : generate_key p₁ = generate_key p₂ := by
  have hsorted : sortedParams p₁ = sortedParams p₂ := by
    have hperm : (sortedParams p₁).Perm (sortedParams p₂) :=
      (List.perm_insertionSort pairLe p₁).trans
        (h.trans (List.perm_insertionSort pairLe p₂).symm)
    exact List.eq_of_perm_of_sorted hperm
      (List.sorted_insertionSort pairLe p₁) (List.sorted_insertionSort pairLe p₂)
  unfold generate_key paramString
  rw [hsorted]

/-- Witness for C2 at a concrete pair of mappings in swapped insertion
order. -/
theorem generate_key_order_invariant_witness :
    ([("lat", PValue.num (138 / 10)), ("lon", PValue.num 100)] : List (String × PValue)).Perm
        [("lon", PValue.num 100), ("lat", PValue.num (138 / 10))] ∧
      generate_key [("lat", PValue.num (138 / 10)), ("lon", PValue.num 100)] =
        generate_key [("lon", PValue.num 100), ("lat", PValue.num (138 / 10))] := by
  have hp : ([("lat", PValue.num (138 / 10)), ("lon", PValue.num 100)] :
      List (String × PValue)).Perm
      [("lon", PValue.num 100), ("lat", PValue.num (138 / 10))] :=
    List.Perm.swap _ _ _
  exact ⟨hp, generate_key_order_invariant _ _ hp⟩

/-! ### C3 : TTL-gated get after set -/

/-- C3: `get` after `set` with the same parameters returns the stored
payload while the entry's age is within the TTL, and once the age
strictly exceeds the TTL it returns absent and unlinks the entry (so an
expired entry is never returned: the post-get state has no entry for the
derived key); on a state with no entry for the derived key, `get`
returns absent and leaves the state unchanged. -/
theorem cache_get_after_set {α : Type} (ttl : ℕ) (st st₀ : CState α)
    (t t' : ℕ) (kwargs : List (String × PValue)) (d : α)
    (h₀ : fileLookup st₀ (generate_key kwargs) = none) :
    (cacheGet ttl (cacheSet st t kwargs d) t' kwargs =
        if ttl < t' - t then
          (none, fileErase (cacheSet st t kwargs d) (generate_key kwargs))
        else (some d, cacheSet st t kwargs d)) ∧
      fileLookup (fileErase (cacheSet st t kwargs d) (generate_key kwargs))
          (generate_key kwargs) = none ∧
      cacheGet ttl st₀ t' kwargs = (none, st₀) := by
  refine ⟨?_, fileLookup_fileErase _ _, ?_⟩
  · simp [cacheGet, cacheSet, fileWrite, fileLookup]
  · simp only [cacheGet, h₀]

/-- Witness for C3 at a concrete store, parameter set, TTL and pair of
clock readings. -/
theorem cache_get_after_set_witness :
    fileLookup ([] : CState ℕ) (generate_key [("a", PValue.str "b")]) = none ∧
      ((cacheGet 24 (cacheSet ([] : CState ℕ) 0 [("a", PValue.str "b")] 7) 25
            [("a", PValue.str "b")] =
          if 24 < 25 - 0 then
            (none, fileErase (cacheSet ([] : CState ℕ) 0 [("a", PValue.str "b")] 7)
              (generate_key [("a", PValue.str "b")]))
          else (some 7, cacheSet ([] : CState ℕ) 0 [("a", PValue.str "b")] 7)) ∧
        fileLookup
            (fileErase (cacheSet ([] : CState ℕ) 0 [("a", PValue.str "b")] 7)
              (generate_key [("a", PValue.str "b")]))
            (generate_key [("a", PValue.str "b")]) = none ∧
        cacheGet 24 ([] : CState ℕ) 25 [("a", PValue.str "b")] = (none, [])) :=
  ⟨rfl, cache_get_after_set 24 [] [] 0 25 [("a", PValue.str "b")] 7 rfl⟩

/-! ### C4 : bounded history retention -/

theorem takeLast_eq_reverse_take {α : Type} (n : ℕ) (l : List α) :
    takeLast n l = (l.reverse.take n).reverse := by
  unfold takeLast
  rw [List.take_reverse, List.reverse_reverse]

theorem takeLast_append_takeLast {α : Type} (x y : List α) :
    takeLast 100 (takeLast 100 x ++ y) = takeLast 100 (x ++ y) := by
  rw [takeLast_eq_reverse_take 100 (takeLast 100 x ++ y),
    takeLast_eq_reverse_take 100 (x ++ y), takeLast_eq_reverse_take 100 x]
  rw [List.reverse_append, List.reverse_append, List.reverse_reverse]
  rw [List.take_append_eq_append_take, List.take_append_eq_append_take,
    List.take_take]
  have hmin : (100 - y.reverse.length) ⊓ 100 = 100 - y.reverse.length := by omega
  rw [hmin]

theorem add_analysis_eq (l : List HistoryEntry) (c : AppendCall) :
    add_analysis l c = takeLast 100 (l ++ [mkEntry c]) := by
  unfold add_analysis takeLast
  by_cases h : 100 < (l ++ [mkEntry c]).length
  · rw [if_pos h]
  · rw [if_neg h, Nat.sub_eq_zero_of_le (le_of_not_lt h), List.drop_zero]

theorem runAppends_cons_eq (c : AppendCall) (cs : List AppendCall)
    (l0 : List HistoryEntry) :
    runAppends l0 (c :: cs) = takeLast 100 (l0 ++ (c :: cs).map mkEntry) := by
  induction cs generalizing l0 c with
  | nil => simp [runAppends, add_analysis_eq]
  | cons c' cs' ih =>
      have h1 : runAppends l0 (c :: c' :: cs') =
          runAppends (add_analysis l0 c) (c' :: cs') := rfl
      rw [h1, ih, add_analysis_eq, takeLast_append_takeLast]
      simp

/-- C4: after any non-empty sequence of `add_analysis` calls starting
from any log state, the log has at most 100 entries, and it consists of
exactly the most recent (at most) 100 entries of the appended stream in
insertion order — i.e. the length-100 suffix of the starting log
followed by the appended entries (oldest-first eviction). -/
theorem history_append_bounded (l0 : List HistoryEntry)
    (calls : List AppendCall) (hne : calls ≠ []) :
    (runAppends l0 calls).length ≤ 100 ∧
      runAppends l0 calls = takeLast 100 (l0 ++ calls.map mkEntry) := by
  match calls with
  | [] => exact absurd rfl hne
  | c :: cs =>
      have h := runAppends_cons_eq c cs l0
      refine ⟨?_, h⟩
      rw [h]
      unfold takeLast
      rw [List.length_drop]
      omega

/-- Witness for C4 at a concrete starting log and call sequence. -/
theorem history_append_bounded_witness :
    ([⟨"2025-01-01T00:00:00", 1, 2, "Cafe", 1000, ⟨1, "v", 0, 1, "g", 0⟩⟩] :
        List AppendCall) ≠ [] ∧
      ((runAppends []
            [⟨"2025-01-01T00:00:00", 1, 2, "Cafe", 1000, ⟨1, "v", 0, 1, "g", 0⟩⟩]).length ≤ 100 ∧
        runAppends []
            [⟨"2025-01-01T00:00:00", 1, 2, "Cafe", 1000, ⟨1, "v", 0, 1, "g", 0⟩⟩] =
          takeLast 100 ([] ++
            ([⟨"2025-01-01T00:00:00", 1, 2, "Cafe", 1000, ⟨1, "v", 0, 1, "g", 0⟩⟩] :
              List AppendCall).map mkEntry)) :=
  ⟨by simp, history_append_bounded [] _ (by simp)⟩

/-! ### C5 : score formula and verdict precedence -/

theorem scoreOf_eq_specScore (s d : ℕ) : scoreOf s d = specScore s d := by
  have h : (if 0 < s then s else 1) = max s 1 := by
    by_cases hp : 0 < s
    · rw [if_pos hp]
      omega
    · rw [if_neg hp]
      omega
  unfold scoreOf specScore
  rw [h]

theorem verdictOf_eq_spec (s d : ℕ) :
    verdictOf s d (scoreOf s d) = specVerdictColor s d := by
  unfold verdictOf specVerdictColor
  rw [scoreOf_eq_specScore]

/-- C5: in every analysis result, the score equals
`round(demand_count / max(supply_count, 1), 2)` on the result's own
counts, and the verdict with its fixed display color is selected by the
claimed precedence chain (uncontested when supply is zero and demand
positive, else by the 5.0 and 2.0 score thresholds). -/
theorem analyze_score_verdict_spec (sampler : List DemandRow → List DemandRow)
    (sf : Option (List SupplyPoint)) (df : Option (List DemandRow))
    (cf : Option ℕ) :
    (analyzeCore sampler sf df cf).score =
        specScore (analyzeCore sampler sf df cf).supply_count
          (analyzeCore sampler sf df cf).demand_count ∧
      ((analyzeCore sampler sf df cf).verdict,
          (analyzeCore sampler sf df cf).verdict_color) =
        specVerdictColor (analyzeCore sampler sf df cf).supply_count
          (analyzeCore sampler sf df cf).demand_count := by
  constructor
  · exact scoreOf_eq_specScore _ _
  · exact verdictOf_eq_spec _ _

/-! ### C6 : growth status thresholds and fetch-failure default -/

/-- C6: the growth status computed from a construction count is
`booming` iff the count exceeds 5, `growing` iff it is in (2, 5], and
`stable` iff it is at most 2; a failed construction fetch leaves the
count at 0 and the status stable, and the analysis result always labels
its own construction count. -/
theorem growth_status_spec (n : ℕ) (sampler : List DemandRow → List DemandRow)
    (sf : Option (List SupplyPoint)) (df : Option (List DemandRow))
    (cf : Option ℕ) :
    ((growthLabel n = "กำลังบูมสุดๆ 🚀") ↔ 5 < n) ∧
      ((growthLabel n = "กำลังเติบโต 📈") ↔ 2 < n ∧ n ≤ 5) ∧
      ((growthLabel n = "ทรงตัว 🏙️") ↔ n ≤ 2) ∧
      (analyzeCore sampler sf df cf).growth_status =
        growthLabel (analyzeCore sampler sf df cf).construction_count ∧
      (analyzeCore sampler sf df none).construction_count = 0 ∧
      (analyzeCore sampler sf df none).growth_status = "ทรงตัว 🏙️" := by
  have hbg : ("กำลังบูมสุดๆ 🚀" : String) ≠ "กำลังเติบโต 📈" := by decide
  have hbs : ("กำลังบูมสุดๆ 🚀" : String) ≠ "ทรงตัว 🏙️" := by decide
  have hgs : ("กำลังเติบโต 📈" : String) ≠ "ทรงตัว 🏙️" := by decide
  refine ⟨?_, ?_, ?_, rfl, rfl, rfl⟩ <;> unfold growthLabel
  · by_cases h5 : 5 < n
    · rw [if_pos h5]
      exact iff_of_true rfl h5
    · by_cases h2 : 2 < n
      · rw [if_neg h5, if_pos h2]
        exact iff_of_false (Ne.symm hbg) h5
      · rw [if_neg h5, if_neg h2]
        exact iff_of_false (Ne.symm hbs) h5
  · by_cases h5 : 5 < n
    · rw [if_pos h5]
      exact iff_of_false hbg (by omega)
    · by_cases h2 : 2 < n
      · rw [if_neg h5, if_pos h2]
        exact iff_of_true rfl ⟨h2, by omega⟩
      · rw [if_neg h5, if_neg h2]
        exact iff_of_false (Ne.symm hgs) (by omega)
  · by_cases h5 : 5 < n
    · rw [if_pos h5]
      exact iff_of_false hbs (by omega)
    · by_cases h2 : 2 < n
      · rw [if_neg h5, if_pos h2]
        exact iff_of_false hgs (by omega)
      · rw [if_neg h5, if_neg h2]
        exact iff_of_true rfl (by omega)

/-! ### C1 : breakdown counts versus demand_count -/

theorem analyzeCore_breakdown (sampler : List DemandRow → List DemandRow)
    (sf : Option (List SupplyPoint)) (df : Option (List DemandRow)) (cf : Option ℕ) :
    (analyzeCore sampler sf df cf).demand_breakdown = (demandSection sampler df).1 := rfl

theorem analyzeCore_demand_count (sampler : List DemandRow → List DemandRow)
    (sf : Option (List SupplyPoint)) (df : Option (List DemandRow)) (cf : Option ℕ) :
    (analyzeCore sampler sf df cf).demand_count = (demandSection sampler df).2.length := rfl

theorem analyzeCore_demand_points (sampler : List DemandRow → List DemandRow)
    (sf : Option (List SupplyPoint)) (df : Option (List DemandRow)) (cf : Option ℕ) :
    (analyzeCore sampler sf df cf).demand_points = (demandSection sampler df).2 := rfl

theorem demandSection_fst (sampler : List DemandRow → List DemandRow)
    (rows : List DemandRow) :
    (demandSection sampler (some rows)).1 = classifyAll rows := rfl

theorem demandSection_snd (sampler : List DemandRow → List DemandRow)
    (rows : List DemandRow) :
    (demandSection sampler (some rows)).2 =
      (sampleDisplay sampler rows).map fun r => (r.lat, r.lon) := rfl

theorem bumpBreakdown_total (b : DemandBreakdown) (g : String) :
    (bumpBreakdown b g).total = b.total + 1 := by
  unfold bumpBreakdown
  split_ifs <;> simp [DemandBreakdown.total] <;> omega

theorem foldl_bump_total (rows : List DemandRow) (b : DemandBreakdown) :
    (rows.foldl (fun acc r => bumpBreakdown acc (classifyRow r.vals)) b).total =
      b.total + rows.length := by
  induction rows generalizing b with
  | nil => simp
  | cons r rest ih =>
      simp only [List.foldl_cons, List.length_cons]
      rw [ih, bumpBreakdown_total]
      omega

theorem classifyAll_total (rows : List DemandRow) :
    (classifyAll rows).total = rows.length := by
  unfold classifyAll
  rw [foldl_bump_total]
  simp [DemandBreakdown.total]

/-- Counterexample for C1 as stated: at a raw demand point set of 1001
points (all tagged `office`) with an admissible display sample of 1000
points, the four category counts sum to 1001 while the result's
demand_count is 1000 — the classification counts are computed over the
full unsampled set but demand_count is taken from the sampled display
list, so they differ. -/
theorem breakdown_sum_counterexample :
    (analyzeCore (fun rows => rows.take 1000) none
          (some (List.replicate 1001 ⟨["office"], 0, 0⟩)) none).demand_breakdown.total ≠
      (analyzeCore (fun rows => rows.take 1000) none
          (some (List.replicate 1001 ⟨["office"], 0, 0⟩)) none).demand_count := by
  have htotal :
      (analyzeCore (fun rows => rows.take 1000) none
          (some (List.replicate 1001 ⟨["office"], 0, 0⟩)) none).demand_breakdown.total = 1001 := by
    rw [analyzeCore_breakdown, demandSection_fst, classifyAll_total,
      List.length_replicate]
  have hcount :
      (analyzeCore (fun rows => rows.take 1000) none
          (some (List.replicate 1001 ⟨["office"], 0, 0⟩)) none).demand_count = 1000 := by
    rw [analyzeCore_demand_count, demandSection_snd]
    simp only [List.length_map]
    unfold sampleDisplay
    rw [if_pos (by rw [List.length_replicate]; omega), List.length_take,
      List.length_replicate]
    omega
  rw [htotal, hcount]
  omega

/-- C1 amended: for every analysis call (with the pandas sampler
abstracted as any function returning exactly 1000 rows on the
over-threshold inputs it is invoked on), the four category counts of
the DemandBreakdown sum to the raw (unsampled) demand point count, the
result's demand_count is `min(raw count, 1000)` (the sampled
display-list length), and the sum equals demand_count exactly when the
raw count does not exceed 1000 — including the empty set and every
failed fetch — while the two differ whenever the raw count exceeds
1000. -/
theorem breakdown_sum_amended (sampler : List DemandRow → List DemandRow)
    (sf : Option (List SupplyPoint)) (cf : Option ℕ)
    (fetch : Option (List DemandRow))
    (hs : ∀ rows : List DemandRow, 1000 < rows.length → (sampler rows).length = 1000) :
    (analyzeCore sampler sf fetch cf).demand_breakdown.total =
        (fetch.getD []).length ∧
      (analyzeCore sampler sf fetch cf).demand_count =
        min (fetch.getD []).length 1000 ∧
      ((analyzeCore sampler sf fetch cf).demand_breakdown.total =
          (analyzeCore sampler sf fetch cf).demand_count ↔
        (fetch.getD []).length ≤ 1000) := by
  have htotal :
      (analyzeCore sampler sf fetch cf).demand_breakdown.total =
        (fetch.getD []).length := by
    match fetch with
    | none => rfl
    | some rows =>
        rw [analyzeCore_breakdown, demandSection_fst, classifyAll_total]
        rfl
  have hcount :
      (analyzeCore sampler sf fetch cf).demand_count =
        min (fetch.getD []).length 1000 := by
    match fetch with
    | none => rfl
    | some rows =>
        rw [analyzeCore_demand_count, demandSection_snd]
        simp only [List.length_map]
        unfold sampleDisplay
        by_cases h : 1000 < rows.length
        · rw [if_pos h, hs rows h]
          simp only [Option.getD_some]
          omega
        · rw [if_neg h]
          simp only [Option.getD_some]
          omega
  refine ⟨htotal, hcount, ?_⟩
  rw [htotal, hcount]
  omega

/-- Witness for C1's amended statement: a concrete sampler satisfying
the pandas length contract, applied at a concrete analysis call. -/
theorem breakdown_sum_amended_witness :
    (∀ rows : List DemandRow, 1000 < rows.length →
        ((fun l : List DemandRow => l.take 1000) rows).length = 1000) ∧
      ((analyzeCore (fun l : List DemandRow => l.take 1000) none
            (some [(⟨["office"], 0, 0⟩ : DemandRow)]) none).demand_breakdown.total =
          ((some [(⟨["office"], 0, 0⟩ : DemandRow)]).getD []).length ∧
        (analyzeCore (fun l : List DemandRow => l.take 1000) none
            (some [(⟨["office"], 0, 0⟩ : DemandRow)]) none).demand_count =
          min ((some [(⟨["office"], 0, 0⟩ : DemandRow)]).getD []).length 1000 ∧
        ((analyzeCore (fun l : List DemandRow => l.take 1000) none
              (some [(⟨["office"], 0, 0⟩ : DemandRow)]) none).demand_breakdown.total =
            (analyzeCore (fun l : List DemandRow => l.take 1000) none
              (some [(⟨["office"], 0, 0⟩ : DemandRow)]) none).demand_count ↔
          ((some [(⟨["office"], 0, 0⟩ : DemandRow)]).getD []).length ≤ 1000)) :=
  have hs : ∀ rows : List DemandRow, 1000 < rows.length →
      ((fun l : List DemandRow => l.take 1000) rows).length = 1000 := by
    intro rows h
    simp only [List.length_take]
    omega
  ⟨hs, breakdown_sum_amended (fun l : List DemandRow => l.take 1000) none none _ hs⟩

/-! ### C10 : demand_count equals the displayed point count, capped -/

/-- C10: for every analyze call (with the pandas sampler abstracted as
any function returning exactly 1000 rows on the over-threshold inputs it
is invoked on), the result's demand_count equals the length of the
returned demand_points list and therefore never exceeds 1000, even when
the raw demand point set is larger — the count is taken after the
display sampling step, not from the full raw set. -/
theorem demand_count_after_sampling (sampler : List DemandRow → List DemandRow)
    (sf : Option (List SupplyPoint)) (cf : Option ℕ)
    (fetch : Option (List DemandRow))
    (hs : ∀ rows : List DemandRow, 1000 < rows.length → (sampler rows).length = 1000) :
    (analyzeCore sampler sf fetch cf).demand_count =
        (analyzeCore sampler sf fetch cf).demand_points.length ∧
      (analyzeCore sampler sf fetch cf).demand_count ≤ 1000 := by
  refine ⟨rfl, ?_⟩
  match fetch with
  | none => exact Nat.zero_le 1000
  | some rows =>
      rw [analyzeCore_demand_count, demandSection_snd]
      simp only [List.length_map]
      unfold sampleDisplay
      by_cases h : 1000 < rows.length
      · rw [if_pos h, hs rows h]
      · rw [if_neg h]
        omega

/-- Witness for C10: a concrete sampler satisfying the pandas length
contract, applied at a concrete call. -/
theorem demand_count_after_sampling_witness :
    (∀ rows : List DemandRow, 1000 < rows.length →
        ((fun l : List DemandRow => l.take 1000) rows).length = 1000) ∧
      ((analyzeCore (fun l : List DemandRow => l.take 1000) none
            (some [(⟨["school"], 1, 2⟩ : DemandRow)]) none).demand_count =
          (analyzeCore (fun l : List DemandRow => l.take 1000) none
            (some [(⟨["school"], 1, 2⟩ : DemandRow)]) none).demand_points.length ∧
        (analyzeCore (fun l : List DemandRow => l.take 1000) none
            (some [(⟨["school"], 1, 2⟩ : DemandRow)]) none).demand_count ≤ 1000) :=
  have hs : ∀ rows : List DemandRow, 1000 < rows.length →
      ((fun l : List DemandRow => l.take 1000) rows).length = 1000 := by
    intro rows h
    simp only [List.length_take]
    omega
  ⟨hs, demand_count_after_sampling (fun l : List DemandRow => l.take 1000) none none _ hs⟩

/-! ### C7 : the exclusion pass of the relevance ranker -/

theorem scoreItem_char (q : String) (i : NominatimItem) :
    scoreItem q i = if exclusionDrop i = true then none else some (mkScored q i) := by
  unfold scoreItem
  by_cases h1 : i.cls = "boundary" ∧ i.typ = "administrative" ∧
      truthyCountry i.addressCountry = true ∧ (i.display_name.splitOn ",").length ≤ 1
  · rw [if_pos h1]
    have hd : exclusionDrop i = true := by
      obtain ⟨hc, ht, htr, hl⟩ := h1
      simp [exclusionDrop, isBareCountryBoundary, hc, ht, htr, hl]
    rw [if_pos hd]
  · rw [if_neg h1]
    by_cases h2 : (i.cls = "natural" ∨ i.cls = "waterway") ∧
        (i.typ = "sea" ∨ i.typ = "ocean" ∨ i.typ = "continent")
    · rw [if_pos h2]
      have hd : exclusionDrop i = true := by
        obtain ⟨hcls, htyp⟩ := h2
        simp only [exclusionDrop, Bool.or_eq_true, isSeaOceanContinent,
          Bool.and_eq_true, beq_iff_eq]
        exact Or.inr ⟨by tauto, by tauto⟩
      rw [if_pos hd]
    · rw [if_neg h2]
      have hd : exclusionDrop i ≠ true := by
        intro hcontra
        simp only [exclusionDrop, Bool.or_eq_true, isBareCountryBoundary,
          isSeaOceanContinent, Bool.and_eq_true, beq_iff_eq,
          decide_eq_true_eq] at hcontra
        rcases hcontra with hcontra | hcontra
        · exact h1 (by tauto)
        · exact h2 (by tauto)
      rw [if_neg hd]

/-- C7: in the exclusion pass of the relevance ranker, a candidate is
dropped (its loop iteration yields no scored record) exactly when it is
an administrative boundary whose display name reduces to a single
country-level component (a bare country match, i.e. the address carries
a truthy country entry and the display name has no further
comma-delimited detail), or when its class/type denotes a sea, ocean, or
continent; every other candidate survives the pass and is scored. -/
theorem exclusion_pass_spec (query : String) (i : NominatimItem) :
    ((scoreItem query i).isSome = !exclusionDrop i) ∧
      (scoreItem query i = none ↔ exclusionDrop i = true) := by
  rw [scoreItem_char]
  by_cases h : exclusionDrop i = true
  · rw [if_pos h, h]
    exact ⟨rfl, iff_of_true rfl rfl⟩
  · rw [if_neg h]
    have hf : exclusionDrop i = false := by simpa using h
    rw [hf]
    exact ⟨rfl, iff_of_false (by simp) (by simp [hf])⟩

/-! ### C8 : relevance scoring, ordering and truncation -/

theorem scored_results_eq (q : String) (data : List NominatimItem) :
    scored_results q data = (data.filter fun i => !exclusionDrop i).map (mkScored q) := by
  induction data with
  | nil => rfl
  | cons i rest ih =>
      unfold scored_results at ih ⊢
      rw [List.filterMap_cons, List.filter_cons]
      by_cases h : exclusionDrop i = true
      · rw [scoreItem_char, if_pos h]
        simp [h, ih]
      · have hf : exclusionDrop i = false := by simpa using h
        rw [scoreItem_char, if_neg h]
        simp [hf, ih]

theorem orderedInsert_map {α β : Type} (f : α → β) (r : α → α → Prop)
    (s : β → β → Prop) [DecidableRel r] [DecidableRel s]
    (hr : ∀ a b, s (f a) (f b) ↔ r a b) (a : α) (l : List α) :
    List.orderedInsert s (f a) (l.map f) = (List.orderedInsert r a l).map f := by
  induction l with
  | nil => rfl
  | cons b t ih =>
      simp only [List.map_cons, List.orderedInsert]
      by_cases h : r a b
      · rw [if_pos ((hr a b).mpr h), if_pos h]
        simp
      · rw [if_neg fun hc => h ((hr a b).mp hc), if_neg h]
        simp [ih]

theorem insertionSort_map {α β : Type} (f : α → β) (r : α → α → Prop)
    (s : β → β → Prop) [DecidableRel r] [DecidableRel s]
    (hr : ∀ a b, s (f a) (f b) ↔ r a b) (l : List α) :
    List.insertionSort s (l.map f) = (List.insertionSort r l).map f := by
  induction l with
  | nil => rfl
  | cons a t ih =>
      simp only [List.map_cons, List.insertionSort]
      rw [ih, orderedInsert_map f r s hr]

/-- C8: the whole ranking agrees with the claimed description: every
surviving candidate's total score is the fixed class/type base score
(with the 30 default for a known class with unknown type and 40 for an
unknown class) plus `importance * 20` plus exactly one name-match bonus
chosen by priority; survivors are sorted by total score descending with
ties retaining input relative order, only the top 8 are returned, and
the internal score is stripped. -/
theorem autocomplete_rank_spec (q : String) (data : List NominatimItem) :
    autocompleteRank q data = specRank q data := by
  unfold autocompleteRank specRank sortByScoreDesc
  rw [scored_results_eq]
  have h1 :
      List.insertionSort (fun a b : ScoredItem => b.score ≤ a.score)
          ((data.filter fun i => !exclusionDrop i).map (mkScored q)) =
        (List.insertionSort
            (fun a b : NominatimItem => specTotalScore q b ≤ specTotalScore q a)
            (data.filter fun i => !exclusionDrop i)).map (mkScored q) :=
    insertionSort_map (mkScored q) _ _ (fun _ _ => Iff.rfl) _
  have h2 :
      List.insertionSort (fun a b : NominatimItem × ℚ => b.2 ≤ a.2)
          ((data.filter fun i => !exclusionDrop i).map
            fun i => (i, specTotalScore q i)) =
        (List.insertionSort
            (fun a b : NominatimItem => specTotalScore q b ≤ specTotalScore q a)
            (data.filter fun i => !exclusionDrop i)).map
          (fun i => (i, specTotalScore q i)) :=
    insertionSort_map _ _ _ (fun _ _ => Iff.rfl) _
  rw [h1, h2, ← List.map_take, ← List.map_take, List.map_map, List.map_map]
  rfl

/-! ### C9 : statistics over the history log -/

theorem bumpType_sum (m : List (String × ℕ)) (bt : String) :
    ((bumpType m bt).map Prod.snd).sum = (m.map Prod.snd).sum + 1 := by
  induction m with
  | nil => rfl
  | cons p rest ih =>
      rcases p with ⟨k, c⟩
      by_cases h : k = bt
      · simp [bumpType, h]
        omega
      · simp [bumpType, h, ih]
        omega

theorem foldl_bumpType_sum (log : List HistoryEntry) (m : List (String × ℕ)) :
    (((log.foldl (fun acc e => bumpType acc e.business_type) m)).map Prod.snd).sum =
      (m.map Prod.snd).sum + log.length := by
  induction log generalizing m with
  | nil => simp
  | cons e rest ih =>
      simp only [List.foldl_cons, List.length_cons]
      rw [ih, bumpType_sum]
      omega

theorem histTypes_sum (log : List HistoryEntry) :
    ((histTypes log).map Prod.snd).sum = log.length := by
  unfold histTypes
  rw [foldl_bumpType_sum]
  simp

theorem bumpType_ne_nil (m : List (String × ℕ)) (bt : String) :
    bumpType m bt ≠ [] := by
  match m with
  | [] => simp [bumpType]
  | (k, c) :: rest =>
      unfold bumpType
      by_cases h : k = bt
      · rw [if_pos h]
        simp
      · rw [if_neg h]
        simp

theorem foldl_bumpType_ne_nil (log : List HistoryEntry) (m : List (String × ℕ))
    (hm : m ≠ []) :
    log.foldl (fun acc e => bumpType acc e.business_type) m ≠ [] := by
  induction log generalizing m with
  | nil => exact hm
  | cons e rest ih =>
      simp only [List.foldl_cons]
      exact ih _ (bumpType_ne_nil m e.business_type)

theorem pyMax_foldl_spec (t : List (String × ℕ)) (p : String × ℕ) :
    t.foldl (fun best x => if best.2 < x.2 then x else best) p ∈ p :: t ∧
      p.2 ≤ (t.foldl (fun best x => if best.2 < x.2 then x else best) p).2 ∧
      ∀ x ∈ t, x.2 ≤ (t.foldl (fun best x => if best.2 < x.2 then x else best) p).2 := by
  induction t generalizing p with
  | nil => exact ⟨List.mem_cons_self p [], le_refl _, by simp⟩
  | cons x rest ih =>
      simp only [List.foldl_cons]
      by_cases h : p.2 < x.2
      · rw [if_pos h]
        obtain ⟨hmem, hle, hall⟩ := ih x
        refine ⟨List.mem_cons_of_mem p hmem, le_of_lt (lt_of_lt_of_le h hle), ?_⟩
        intro y hy
        rcases List.mem_cons.mp hy with heq | hy'
        · rw [heq]
          exact hle
        · exact hall y hy'
      · rw [if_neg h]
        obtain ⟨hmem, hle, hall⟩ := ih p
        refine ⟨?_, hle, ?_⟩
        · rcases List.mem_cons.mp hmem with heq | hmem'
          · rw [heq]
            exact List.mem_cons_self p _
          · exact List.mem_cons_of_mem p (List.mem_cons_of_mem x hmem')
        · intro y hy
          rcases List.mem_cons.mp hy with heq | hy'
          · rw [heq]
            exact le_trans (le_of_not_lt h) hle
          · exact hall y hy'

theorem get_statistics_cons (e : HistoryEntry) (rest : List HistoryEntry) :
    get_statistics (e :: rest) =
      ⟨(e :: rest).length, histTypes (e :: rest),
        pyRound ((((e :: rest)).map fun h => h.result.score).sum /
          ((e :: rest).length : ℚ)) 2,
        (pyMaxSnd (histTypes (e :: rest))).map Prod.fst,
        some (e.timestamp,
          ((e :: rest).getLast (List.cons_ne_nil e rest)).timestamp)⟩ := rfl

/-- C9: the statistics operation is total (never raises): on an empty
log it returns the zeroed record with the histogram empty, the
most-frequent type absent and the date range absent; on a non-empty log
it returns the full-log entry count, a business-type histogram whose
counts sum to the log length, the rounded average of all scores, a
most-frequent business type (one attaining the maximal histogram count),
and the first and last timestamps of the log. -/
theorem get_statistics_spec (log : List HistoryEntry) (hne : log ≠ []) :
    get_statistics [] = ⟨0, [], 0, none, none⟩ ∧
      ((histTypes log).map Prod.snd).sum = log.length ∧
      (get_statistics log).total_analyses = log.length ∧
      (get_statistics log).average_score =
        pyRound ((log.map fun h => h.result.score).sum / (log.length : ℚ)) 2 ∧
      (∃ hd lst, log.head? = some hd ∧ log.getLast? = some lst ∧
        (get_statistics log).date_range = some (hd.timestamp, lst.timestamp)) ∧
      (∃ m c, (get_statistics log).most_analyzed_type = some m ∧
        (m, c) ∈ histTypes log ∧ ∀ p ∈ histTypes log, p.2 ≤ c) := by
  match log with
  | [] => exact absurd rfl hne
  | e :: rest =>
      refine ⟨rfl, histTypes_sum _, ?_, ?_, ?_, ?_⟩
      · rw [get_statistics_cons]
      · rw [get_statistics_cons]
      · refine ⟨e, (e :: rest).getLast (List.cons_ne_nil e rest), rfl, ?_, ?_⟩
        · exact List.getLast?_eq_getLast _ _
        · rw [get_statistics_cons]
      · have hbts : histTypes (e :: rest) ≠ [] :=
          foldl_bumpType_ne_nil rest _ (bumpType_ne_nil [] e.business_type)
        match hb : histTypes (e :: rest) with
        | [] => exact absurd hb hbts
        | b :: bs =>
            obtain ⟨hmem, hle, hall⟩ := pyMax_foldl_spec bs b
            refine ⟨(bs.foldl (fun best x => if best.2 < x.2 then x else best) b).1,
              (bs.foldl (fun best x => if best.2 < x.2 then x else best) b).2,
              ?_, ?_, ?_⟩
            · rw [get_statistics_cons]
              simp only [hb]
              rfl
            · exact hmem
            · intro p hp
              rcases List.mem_cons.mp hp with heq | hp'
              · exact heq ▸ hle
              · exact hall p hp'

/-- Witness for C9 at a concrete one-entry log. -/
theorem get_statistics_spec_witness :
    ([(⟨"2025-01-01T00:00:00", 1, 2, "Cafe", 1000, ⟨3, "v", 1, 3, "g", 0⟩⟩ :
        HistoryEntry)] ≠ []) ∧
      (get_statistics [] = ⟨0, [], 0, none, none⟩ ∧
        ((histTypes [(⟨"2025-01-01T00:00:00", 1, 2, "Cafe", 1000,
            ⟨3, "v", 1, 3, "g", 0⟩⟩ : HistoryEntry)]).map Prod.snd).sum =
          [(⟨"2025-01-01T00:00:00", 1, 2, "Cafe", 1000,
            ⟨3, "v", 1, 3, "g", 0⟩⟩ : HistoryEntry)].length ∧
        (get_statistics [(⟨"2025-01-01T00:00:00", 1, 2, "Cafe", 1000,
            ⟨3, "v", 1, 3, "g", 0⟩⟩ : HistoryEntry)]).total_analyses =
          [(⟨"2025-01-01T00:00:00", 1, 2, "Cafe", 1000,
            ⟨3, "v", 1, 3, "g", 0⟩⟩ : HistoryEntry)].length ∧
        (get_statistics [(⟨"2025-01-01T00:00:00", 1, 2, "Cafe", 1000,
            ⟨3, "v", 1, 3, "g", 0⟩⟩ : HistoryEntry)]).average_score =
          pyRound (([(⟨"2025-01-01T00:00:00", 1, 2, "Cafe", 1000,
              ⟨3, "v", 1, 3, "g", 0⟩⟩ : HistoryEntry)].map
            fun h => h.result.score).sum /
            (([(⟨"2025-01-01T00:00:00", 1, 2, "Cafe", 1000,
              ⟨3, "v", 1, 3, "g", 0⟩⟩ : HistoryEntry)].length : ℚ))) 2 ∧
        (∃ hd lst,
          [(⟨"2025-01-01T00:00:00", 1, 2, "Cafe", 1000,
            ⟨3, "v", 1, 3, "g", 0⟩⟩ : HistoryEntry)].head? = some hd ∧
          [(⟨"2025-01-01T00:00:00", 1, 2, "Cafe", 1000,
            ⟨3, "v", 1, 3, "g", 0⟩⟩ : HistoryEntry)].getLast? = some lst ∧
          (get_statistics [(⟨"2025-01-01T00:00:00", 1, 2, "Cafe", 1000,
            ⟨3, "v", 1, 3, "g", 0⟩⟩ : HistoryEntry)]).date_range =
            some (hd.timestamp, lst.timestamp)) ∧
        (∃ m c,
          (get_statistics [(⟨"2025-01-01T00:00:00", 1, 2, "Cafe", 1000,
            ⟨3, "v", 1, 3, "g", 0⟩⟩ : HistoryEntry)]).most_analyzed_type = some m ∧
          (m, c) ∈ histTypes [(⟨"2025-01-01T00:00:00", 1, 2, "Cafe", 1000,
            ⟨3, "v", 1, 3, "g", 0⟩⟩ : HistoryEntry)] ∧
          ∀ p ∈ histTypes [(⟨"2025-01-01T00:00:00", 1, 2, "Cafe", 1000,
            ⟨3, "v", 1, 3, "g", 0⟩⟩ : HistoryEntry)], p.2 ≤ c)) :=
  ⟨by simp, get_statistics_spec _ (by simp)⟩

end MarketGapHunter
